import Mathlib

/-!
# VYB feed-ranking and engagement pipeline: verification development

Shallow embedding of the engagement-scoring, caching, feed and
background-job code of the VYB backend, with theorems checking the
natural-language specification against it.

Conventions:
* JavaScript numbers on the exact paths (counters, weights) are modelled
  as `ℚ`; the decayed score uses a real exponent `1.5`, so the decay math
  is modelled over `ℝ`.
* Timestamps are epoch milliseconds (`ℤ`, or `ℝ` where they feed the
  decay formula).
* A JavaScript value that may be `null` is modelled as `Option`; a
  fallible request handler returns `Except`.
-/

namespace VYB

/-! ## Score Engine (src `engagementScoring.js`)

`WEIGHTS`, `calculateRawScore`, `applyTimeDecay` and the rounding
performed by `computeEngagementScores` before the bulk write. -/

/-- Scoring weights, from the `WEIGHTS` constant of `engagementScoring.js`. -/
structure ScoreWeights where
  like : ℚ
  comment : ℚ
  share : ℚ
  save : ℚ
  view : ℚ
  completion : ℚ

/-- `WEIGHTS` of `engagementScoring.js`. -/
def WEIGHTS : ScoreWeights :=
  { like := 1.0, comment := 2.5, share := 4.0, save := 3.0, view := 0.1
    completion := 5.0 }

/-- `DECAY_OFFSET` of `engagementScoring.js`. -/
def DECAY_OFFSET : ℝ := 2

/-- `DECAY_EXPONENT` of `engagementScoring.js`. -/
def DECAY_EXPONENT : ℝ := 1.5

/-- The fields of a `Post` record read by the Score Engine. -/
structure EngPost where
  likeCount : ℚ
  commentCount : ℚ
  shareCount : ℚ
  saveCount : ℚ
  viewCount : ℚ
  completionSum : ℚ
  isReel : Bool
  /-- creation timestamp, epoch milliseconds -/
  createdAt : ℤ

/-- `calculateRawScore(post)` of `engagementScoring.js`: the weighted sum
of the counters, plus — when `post.isReel && post.viewCount > 0 &&
post.completionSum > 0` — the average-completion bonus
`(completionSum / viewCount) * WEIGHTS.completion`. -/
def calculateRawScore (post : EngPost) : ℚ :=
  post.likeCount * WEIGHTS.like
    + post.commentCount * WEIGHTS.comment
    + post.shareCount * WEIGHTS.share
    + post.saveCount * WEIGHTS.save
    + post.viewCount * WEIGHTS.view
    + (if post.isReel = true ∧ 0 < post.viewCount ∧ 0 < post.completionSum then
        (post.completionSum / post.viewCount) * WEIGHTS.completion
      else 0)

/-- `applyTimeDecay(rawScore, createdAt)` of `engagementScoring.js`.
The source reads `Date.now()` inside the function; the embedding passes
that clock value in as `now` (epoch milliseconds). -/
noncomputable def applyTimeDecay (rawScore : ℝ) (createdAt now : ℝ) : ℝ :=
  let hoursSincePost := (now - createdAt) / (1000 * 60 * 60)
  let decayFactor := (hoursSincePost + DECAY_OFFSET) ^ DECAY_EXPONENT
  rawScore / decayFactor

/-- The exact decayed score the engagement batch job computes for a post:
`applyTimeDecay(calculateRawScore(post), post.createdAt)`
(`computeEngagementScores` in `engagementScoring.js`). -/
noncomputable def decayedEngagementScore (post : EngPost) (now : ℝ) : ℝ :=
  applyTimeDecay ((calculateRawScore post : ℚ) : ℝ) (post.createdAt : ℝ) now

/-- The value `computeEngagementScores` persists for a post:
`Math.round(engagementScore * 100) / 100` (two-decimal rounding,
half away from the post towards `+∞`, which is `⌊x + 1/2⌋`, exactly
JavaScript `Math.round`). -/
noncomputable def storedEngagementScore (post : EngPost) (now : ℝ) : ℝ :=
  ((round (decayedEngagementScore post now * 100) : ℤ) : ℝ) / 100

/-- A post with every counter zero, used to refute strict decay decrease. -/
def zeroPost : EngPost := ⟨0, 0, 0, 0, 0, 0, false, 0⟩

/-- The raw score with every counter zero is zero. -/
lemma calculateRawScore_zero : calculateRawScore zeroPost = 0 := by
  norm_num [calculateRawScore, WEIGHTS, zeroPost]

/-- With non-negative counters the raw score is non-negative. -/
lemma calculateRawScore_nonneg (p : EngPost)
    (hl : 0 ≤ p.likeCount) (hc : 0 ≤ p.commentCount) (hsh : 0 ≤ p.shareCount)
    (hsa : 0 ≤ p.saveCount) (hv : 0 ≤ p.viewCount) (hcs : 0 ≤ p.completionSum) :
    0 ≤ calculateRawScore p := by
  unfold calculateRawScore WEIGHTS
  have hbonus : (0:ℚ) ≤
      (if p.isReel = true ∧ 0 < p.viewCount ∧ 0 < p.completionSum then
        (p.completionSum / p.viewCount) * (5.0 : ℚ)
      else 0) := by
    split_ifs with h
    · exact mul_nonneg (div_nonneg hcs hv) (by norm_num)
    · exact le_refl 0
  have hbase : (0:ℚ) ≤ p.likeCount * (1.0:ℚ) + p.commentCount * (2.5:ℚ)
      + p.shareCount * (4.0:ℚ) + p.saveCount * (3.0:ℚ) + p.viewCount * (0.1:ℚ) := by
    positivity
  simpa using add_nonneg hbase hbonus

/-- Example post for the C1 witness. -/
def exC1 : EngPost := ⟨3, 1, 2, 1, 10, 20, true, 0⟩

/-- Example post for the C2 witness: a single like, nothing else. -/
def exC2 : EngPost := ⟨1, 0, 0, 0, 0, 0, false, 0⟩

/-- C1: for every post (with the non-negative `completionSum` the data
model guarantees), the raw engagement score equals
`like×1.0 + comment×2.5 + share×4.0 + save×3.0 + view×0.1`, plus —
exactly when `isReel = true` and `viewCount > 0` — a reel bonus of
`(completionSum / viewCount) × 5.0`; in every other case the completion
term contributes exactly 0.  (The source additionally tests
`completionSum > 0`, but when `completionSum = 0` the bonus term is `0`
anyway, so the two conditions give the same score.) -/
theorem rawScore_weighted_sum_with_reel_bonus (p : EngPost)
    (hcs : 0 ≤ p.completionSum) :
    calculateRawScore p =
      p.likeCount * 1.0 + p.commentCount * 2.5 + p.shareCount * 4.0
        + p.saveCount * 3.0 + p.viewCount * 0.1
        + (if p.isReel = true ∧ 0 < p.viewCount then
            (p.completionSum / p.viewCount) * 5.0
          else 0) := by
  unfold calculateRawScore WEIGHTS
  by_cases h1 : p.isReel = true ∧ 0 < p.viewCount
  · by_cases h2 : 0 < p.completionSum
    · have hL : p.isReel = true ∧ 0 < p.viewCount ∧ 0 < p.completionSum :=
        ⟨h1.1, h1.2, h2⟩
      rw [if_pos hL, if_pos h1]
    · have h0 : p.completionSum = 0 := le_antisymm (not_lt.mp h2) hcs
      have hL : ¬(p.isReel = true ∧ 0 < p.viewCount ∧ 0 < p.completionSum) := by
        rintro ⟨-, -, hc⟩; exact h2 hc
      rw [if_neg hL, if_pos h1, h0]
      simp
  · have hL : ¬(p.isReel = true ∧ 0 < p.viewCount ∧ 0 < p.completionSum) := by
      rintro ⟨ha, hb, -⟩; exact h1 ⟨ha, hb⟩
    rw [if_neg hL, if_neg h1]

/-- Witness for C1 at a concrete reel post. -/
theorem rawScore_weighted_sum_with_reel_bonus_witness :
    0 ≤ exC1.completionSum ∧
    calculateRawScore exC1 =
      exC1.likeCount * 1.0 + exC1.commentCount * 2.5 + exC1.shareCount * 4.0
        + exC1.saveCount * 3.0 + exC1.viewCount * 0.1
        + (if exC1.isReel = true ∧ 0 < exC1.viewCount then
            (exC1.completionSum / exC1.viewCount) * 5.0
          else 0) :=
  ⟨by norm_num [exC1],
   rawScore_weighted_sum_with_reel_bonus exC1 (by norm_num [exC1])⟩

/-- C2 counterexample: with all counters zero (which are non-negative
values) the raw score is 0, so the decayed score is 0 at every `now`:
it does not strictly decrease as `now` advances. -/
theorem decayedScore_not_strictly_decreasing_at_zero :
    decayedEngagementScore zeroPost 3600000 = decayedEngagementScore zeroPost 0 ∧
    ¬ (decayedEngagementScore zeroPost 3600000 <
        decayedEngagementScore zeroPost 0) := by
  have h0 : calculateRawScore zeroPost = 0 := calculateRawScore_zero
  constructor
  · simp [decayedEngagementScore, applyTimeDecay, h0]
  · simp [decayedEngagementScore, applyTimeDecay, h0]

/-- C2 (amended): for non-negative counters and `createdAt ≤ now`, the
decayed score `raw / (hoursSince + 2)^1.5` is non-negative, and — with
the counters held fixed — it is strictly decreasing as `now` advances
provided the raw score is positive. -/
theorem decayedScore_nonneg_and_decreasing (p : EngPost)
    (hl : 0 ≤ p.likeCount) (hc : 0 ≤ p.commentCount) (hsh : 0 ≤ p.shareCount)
    (hsa : 0 ≤ p.saveCount) (hv : 0 ≤ p.viewCount) (hcs : 0 ≤ p.completionSum)
    (now1 now2 : ℝ) (h1 : (p.createdAt : ℝ) ≤ now1) (h12 : now1 < now2) :
    0 ≤ decayedEngagementScore p now1 ∧
    (0 < calculateRawScore p →
      decayedEngagementScore p now2 < decayedEngagementScore p now1) := by
  have hraw : (0:ℝ) ≤ ((calculateRawScore p : ℚ) : ℝ) := by
    exact_mod_cast calculateRawScore_nonneg p hl hc hsh hsa hv hcs
  set c : ℝ := (p.createdAt : ℝ) with hcdef
  set b1 : ℝ := (now1 - c) / (1000 * 60 * 60) + DECAY_OFFSET with hb1def
  set b2 : ℝ := (now2 - c) / (1000 * 60 * 60) + DECAY_OFFSET with hb2def
  have hb1pos : 0 < b1 := by
    have : (0:ℝ) ≤ (now1 - c) / (1000 * 60 * 60) :=
      div_nonneg (by linarith) (by norm_num)
    rw [hb1def]; unfold DECAY_OFFSET; linarith
  have hb12 : b1 < b2 := by
    rw [hb1def, hb2def]
    have : (now1 - c) / (1000 * 60 * 60) < (now2 - c) / (1000 * 60 * 60) :=
      div_lt_div_of_pos_right (by linarith) (by norm_num)
    linarith
  have hpow1 : 0 < b1 ^ DECAY_EXPONENT := Real.rpow_pos_of_pos hb1pos _
  have hpow12 : b1 ^ DECAY_EXPONENT < b2 ^ DECAY_EXPONENT :=
    Real.rpow_lt_rpow (le_of_lt hb1pos) hb12 (by unfold DECAY_EXPONENT; norm_num)
  constructor
  · show 0 ≤ decayedEngagementScore p now1
    simp only [decayedEngagementScore, applyTimeDecay, ← hcdef, ← hb1def]
    exact div_nonneg hraw (le_of_lt hpow1)
  · intro hrawpos
    have hrawpos' : (0:ℝ) < ((calculateRawScore p : ℚ) : ℝ) := by
      exact_mod_cast hrawpos
    show decayedEngagementScore p now2 < decayedEngagementScore p now1
    simp only [decayedEngagementScore, applyTimeDecay, ← hcdef, ← hb1def, ← hb2def]
    exact div_lt_div_of_pos_left hrawpos' hpow1 hpow12

/-- Witness for C2 (amended) at a post with one like, over one hour. -/
theorem decayedScore_nonneg_and_decreasing_witness :
    0 < calculateRawScore exC2 ∧
    0 ≤ decayedEngagementScore exC2 0 ∧
    decayedEngagementScore exC2 3600000 < decayedEngagementScore exC2 0 := by
  have hraw : 0 < calculateRawScore exC2 := by
    norm_num [exC2, calculateRawScore, WEIGHTS]
  have h := decayedScore_nonneg_and_decreasing exC2
    (by norm_num [exC2]) (by norm_num [exC2]) (by norm_num [exC2])
    (by norm_num [exC2]) (by norm_num [exC2]) (by norm_num [exC2])
    0 3600000 (by norm_num [exC2]) (by norm_num)
  exact ⟨hraw, h.1, h.2 hraw⟩

/-- C9: the engagement batch job persists the decayed score rounded to
two decimal places — `Math.round(score × 100) / 100` — so the stored
value differs from the exact decayed score by at most `0.005`. -/
theorem storedScore_is_rounded_within_half_cent (p : EngPost) (now : ℝ) :
    storedEngagementScore p now =
      ((round (decayedEngagementScore p now * 100) : ℤ) : ℝ) / 100 ∧
    |storedEngagementScore p now - decayedEngagementScore p now| ≤ 0.005 := by
  refine ⟨rfl, ?_⟩
  have h := abs_sub_round (decayedEngagementScore p now * 100)
  rw [abs_sub_comm] at h
  unfold storedEngagementScore
  set x := decayedEngagementScore p now with hx
  have hrw : ((round (x * 100) : ℤ) : ℝ) / 100 - x =
      (((round (x * 100) : ℤ) : ℝ) - x * 100) / 100 := by ring
  rw [hrw, abs_div]
  have h100 : |(100:ℝ)| = 100 := by norm_num
  rw [h100]
  linarith

/-! ## Cache Layer (src `cache.js`, in-memory fallback path)

`memoryCache` / `memoryCacheTTL` are modelled as one state record.  A
JavaScript value that may be `null` is `Option V` (`none` = `null`);
a map entry that may be absent wraps that in another `Option`.  The
JSON serialize/parse round-trip of the source is the identity here.
The Redis branch is an external collaborator (`isRedisConnected` is
false when no Redis is available); the embedding models the in-memory
fallback the source always keeps. -/

/-- Pointwise map update, modelling `Map.set` / `Map.delete`
(`delete` passes `none`). -/
def updMap {α : Type} (m : String → Option α) (k : String) (v : Option α) :
    String → Option α :=
  fun q => if q = k then v else m q

/-- The in-memory cache state: `memoryCache` and `memoryCacheTTL` of
`cache.js`. `ttlm` holds the expiry instant in epoch milliseconds. -/
structure CacheState (V : Type) where
  mem : String → Option (Option V)
  ttlm : String → Option ℤ

namespace Cache

/-- `set(key, value, ttlSeconds)` of `cache.js` (memory path): stores the
serialized value and `Date.now() + ttlSeconds * 1000` as expiry. -/
def set {V : Type} (s : CacheState V) (key : String) (v : Option V)
    (ttlSeconds now : ℤ) : CacheState V :=
  { mem := updMap s.mem key (some v)
    ttlm := updMap s.ttlm key (some (now + ttlSeconds * 1000)) }

/-- `get(key)` of `cache.js` (memory path): if a truthy expiry exists and
is `< Date.now()`, both entries are deleted and `null` returned;
otherwise the stored value (or `null` when absent) is returned.
Returns the value together with the possibly-updated state. -/
def get {V : Type} (s : CacheState V) (key : String) (now : ℤ) :
    Option V × CacheState V :=
  match s.ttlm key with
  | some t =>
      if t ≠ 0 ∧ t < now then
        (none, { mem := updMap s.mem key none, ttlm := updMap s.ttlm key none })
      else
        ((s.mem key).getD none, s)
  | none => ((s.mem key).getD none, s)

/-- Result of one `cached` call: the returned value, the cache state
afterwards, and whether `fn` was invoked during the call. -/
structure CachedOutcome (V : Type) where
  value : Option V
  state : CacheState V
  invoked : Bool

/-- `cached(key, fn, ttlSeconds)` of `cache.js`: return the cached value
when `get` yields non-`null`; otherwise invoke `fn`, store its result
with the TTL, and return it. -/
def cached {V : Type} (s : CacheState V) (key : String) (fn : Unit → Option V)
    (ttlSeconds now : ℤ) : CachedOutcome V :=
  let g := Cache.get s key now
  match g.1 with
  | some v => ⟨some v, g.2, false⟩
  | none =>
      let result := fn ()
      ⟨result, Cache.set g.2 key result ttlSeconds now, true⟩

end Cache

/-- A cache state with no entries at all. -/
def emptyCache (V : Type) : CacheState V := ⟨fun _ => none, fun _ => none⟩

/-- A compute function that returns `null`. -/
def fnNull : Unit → Option Nat := fun _ => none

/-- A compute function that returns `7`. -/
def fnSeven : Unit → Option Nat := fun _ => some 7

/-- A `cached` call on a key that is entirely absent invokes `fn`,
returns its result, and stores it. -/
lemma cached_miss {V : Type} (s0 : CacheState V) (key : String)
    (fn : Unit → Option V) (ttl t0 : ℤ)
    (hmem : s0.mem key = none) (httl : s0.ttlm key = none) :
    Cache.cached s0 key fn ttl t0 =
      ⟨fn (), Cache.set s0 key (fn ()) ttl t0, true⟩ := by
  unfold Cache.cached Cache.get
  rw [httl]
  simp [hmem]

/-- After `Cache.set`, the stored value and expiry are at the key. -/
lemma set_mem_ttlm {V : Type} (s0 : CacheState V) (key : String)
    (v : Option V) (ttl t0 : ℤ) :
    (Cache.set s0 key v ttl t0).mem key = some v ∧
    (Cache.set s0 key v ttl t0).ttlm key = some (t0 + ttl * 1000) := by
  constructor <;> simp [Cache.set, updMap]

/-- C5 counterexample: with `computeFn = () => null` (empty initial
cache, key `"k"`, TTL 300 s, both calls at the same instant, hence
within the TTL window), *both* `cached` calls invoke `computeFn`
— refuting "invokes computeFn exactly once" for every computeFn. -/
theorem cached_invokes_twice_on_null_compute :
    (Cache.cached (emptyCache Nat) "k" fnNull 300 1000).invoked = true ∧
    (Cache.cached (Cache.cached (emptyCache Nat) "k" fnNull 300 1000).state
      "k" fnNull 300 1000).invoked = true := by
  constructor <;> rfl

/-- C5 (amended): for every key, TTL and computeFn *that returns a
non-null value*: starting from a state with no entry for the key,
the first `cached` call invokes computeFn and returns its value; a
second call within the TTL window does not invoke computeFn and
returns the stored value; a call after the TTL has expired invokes
computeFn again.  (`0 < t0 + ttl·1000` says the stored expiry instant
is truthy, which always holds for real epoch timestamps.) -/
theorem cached_computes_once_within_ttl {V : Type} (s0 : CacheState V)
    (key : String) (fn : Unit → Option V) (ttl t0 t1 t2 : ℤ)
    (hmem : s0.mem key = none) (httl : s0.ttlm key = none)
    (hfn : fn () ≠ none)
    (hpos : 0 < t0 + ttl * 1000)
    (hwithin : t1 ≤ t0 + ttl * 1000)
    (hafter : t0 + ttl * 1000 < t2) :
    (Cache.cached s0 key fn ttl t0).invoked = true ∧
    (Cache.cached s0 key fn ttl t0).value = fn () ∧
    (Cache.cached (Cache.cached s0 key fn ttl t0).state key fn ttl t1).invoked
      = false ∧
    (Cache.cached (Cache.cached s0 key fn ttl t0).state key fn ttl t1).value
      = fn () ∧
    (Cache.cached (Cache.cached s0 key fn ttl t0).state key fn ttl t2).invoked
      = true := by
  obtain ⟨v, hv⟩ : ∃ v, fn () = some v := by
    cases hfncase : fn () with
    | none => exact absurd hfncase hfn
    | some v => exact ⟨v, rfl⟩
  have hr1 := cached_miss s0 key fn ttl t0 hmem httl
  have hmem1 := (set_mem_ttlm s0 key (fn ()) ttl t0).1
  have httl1 := (set_mem_ttlm s0 key (fn ()) ttl t0).2
  have hr2 : Cache.cached (Cache.set s0 key (fn ()) ttl t0) key fn ttl t1 =
      ⟨fn (), Cache.set s0 key (fn ()) ttl t0, false⟩ := by
    unfold Cache.cached Cache.get
    rw [httl1]
    have hcond : ¬(t0 + ttl * 1000 ≠ 0 ∧ t0 + ttl * 1000 < t1) := by
      rintro ⟨-, hlt⟩; omega
    simp [hcond, hv, Cache.set, updMap]
  have hr3 : (Cache.cached (Cache.set s0 key (fn ()) ttl t0) key fn ttl t2).invoked
      = true := by
    unfold Cache.cached Cache.get
    rw [httl1]
    have hcond : t0 + ttl * 1000 ≠ 0 ∧ t0 + ttl * 1000 < t2 :=
      ⟨by omega, hafter⟩
    simp [hcond.1, hcond.2]
  rw [hr1]
  exact ⟨rfl, rfl, by rw [hr2], by rw [hr2], hr3⟩

/-- Witness for C5 (amended) at a concrete key, TTL and compute
function. -/
theorem cached_computes_once_within_ttl_witness :
    (Cache.cached (emptyCache Nat) "k" fnSeven 300 1000).invoked = true ∧
    (Cache.cached (emptyCache Nat) "k" fnSeven 300 1000).value = fnSeven () ∧
    (Cache.cached (Cache.cached (emptyCache Nat) "k" fnSeven 300 1000).state
      "k" fnSeven 300 200000).invoked = false ∧
    (Cache.cached (Cache.cached (emptyCache Nat) "k" fnSeven 300 1000).state
      "k" fnSeven 300 200000).value = fnSeven () ∧
    (Cache.cached (Cache.cached (emptyCache Nat) "k" fnSeven 300 1000).state
      "k" fnSeven 300 301001).invoked = true :=
  cached_computes_once_within_ttl (emptyCache Nat) "k" fnSeven 300 1000 200000
    301001 rfl rfl (by simp [fnSeven]) (by norm_num) (by norm_num) (by norm_num)

/-- C10: when computeFn returns `null`, `cached` returns `null` but the
stored `null` is indistinguishable from a miss: every subsequent
`cached` call with the same key invokes computeFn again (at any later
instant, in particular within the TTL window) and returns `null`. -/
theorem cached_null_never_becomes_hit {V : Type} (s0 : CacheState V)
    (key : String) (fn : Unit → Option V) (ttl t0 : ℤ)
    (hmem : s0.mem key = none) (httl : s0.ttlm key = none)
    (hfn : fn () = none) :
    (Cache.cached s0 key fn ttl t0).value = none ∧
    (Cache.cached s0 key fn ttl t0).invoked = true ∧
    ∀ ttl2 t1,
      (Cache.cached (Cache.cached s0 key fn ttl t0).state key fn ttl2 t1).invoked
        = true ∧
      (Cache.cached (Cache.cached s0 key fn ttl t0).state key fn ttl2 t1).value
        = none := by
  have hr1 := cached_miss s0 key fn ttl t0 hmem httl
  have hmem1 := (set_mem_ttlm s0 key (fn ()) ttl t0).1
  have httl1 := (set_mem_ttlm s0 key (fn ()) ttl t0).2
  rw [hr1]
  refine ⟨hfn, rfl, ?_⟩
  intro ttl2 t1
  show (Cache.cached (Cache.set s0 key (fn ()) ttl t0) key fn ttl2 t1).invoked
      = true ∧
    (Cache.cached (Cache.set s0 key (fn ()) ttl t0) key fn ttl2 t1).value = none
  unfold Cache.cached Cache.get
  rw [httl1]
  by_cases hcond : t0 + ttl * 1000 ≠ 0 ∧ t0 + ttl * 1000 < t1
  · simp [hcond.1, hcond.2, hfn]
  · simp [hcond, hfn, Cache.set, updMap]

/-- Witness for C10 at a concrete key and instants. -/
theorem cached_null_never_becomes_hit_witness :
    (Cache.cached (emptyCache Nat) "k" fnNull 300 1000).value = none ∧
    (Cache.cached (emptyCache Nat) "k" fnNull 300 1000).invoked = true ∧
    (Cache.cached (Cache.cached (emptyCache Nat) "k" fnNull 300 1000).state
      "k" fnNull 60 2000).invoked = true ∧
    (Cache.cached (Cache.cached (emptyCache Nat) "k" fnNull 300 1000).state
      "k" fnNull 60 2000).value = none := by
  have h := cached_null_never_becomes_hit (emptyCache Nat) "k" fnNull 300 1000
    rfl rfl rfl
  exact ⟨h.1, h.2.1, (h.2.2 60 2000).1, (h.2.2 60 2000).2⟩

/-! ## Feed Service (src `postController.js`: `getExplorePosts`,
`getFollowingFeed`) -/

/-- The fields of a `Post` record the feed queries read. -/
structure FeedPost where
  author : String
  isDeleted : Bool
  status : String
  visibility : String
  isReel : Bool
  engagementScore : ℚ
  createdAt : ℤ

/-- The explore-feed response / cache payload `{ posts, page, limit }`. -/
structure ExplorePage where
  posts : List FeedPost
  page : ℕ
  limit : ℕ

/-- The following-feed response / cache payload
`{ posts, hasMore, page, limit }`. -/
structure FollowPage where
  posts : List FeedPost
  hasMore : Bool
  page : ℕ
  limit : ℕ

/-- `cacheKeys.exploreFeed(page)` of `cache.js`. -/
def exploreKey (page : ℕ) : String := "feed:explore:" ++ toString page

/-- `cacheKeys.followingFeed(userId, page)` of `cache.js`. -/
def followingKey (userId : String) (page : ℕ) : String :=
  "feed:following:" ++ userId ++ ":" ++ toString page

/-- `TTL.EXPLORE_FEED` (15 minutes, in seconds). -/
def EXPLORE_FEED_TTL : ℤ := 15 * 60

/-- `TTL.FOLLOWING_FEED` (5 minutes, in seconds). -/
def FOLLOWING_FEED_TTL : ℤ := 5 * 60

/-- The Mongo match of `getExplorePosts`:
`{ isDeleted: false, status: 'ready', visibility: 'public' }`. -/
def exploreMatch (p : FeedPost) : Bool :=
  !p.isDeleted && p.status == "ready" && p.visibility == "public"

/-- The Mongo sort `{ engagementScore: -1 }` of `getExplorePosts`. -/
def byScoreDesc (a b : FeedPost) : Bool :=
  decide (b.engagementScore ≤ a.engagementScore)

/-- The explore store query: match, sort by `engagementScore`
descending, `skip((page-1)*limit)`, `limit(limit)`. -/
def explorePageQuery (store : List FeedPost) (page limit : ℕ) : List FeedPost :=
  ((((store.filter exploreMatch).mergeSort byScoreDesc).drop
    ((page - 1) * limit)).take limit)

/-- Result of one feed request: the response sent, the cache state
afterwards, and whether the post/counter store was queried. -/
structure FeedResult (P : Type) where
  response : P
  state : CacheState P
  postStoreQueried : Bool

/-- `getExplorePosts` of `postController.js`: on a cache hit, the cached
page is returned with the requester's blocked authors filtered out of
`posts`; on a miss, the store is queried without any block condition,
the unfiltered result is cached for `TTL.EXPLORE_FEED` and returned. -/
def getExplorePosts (s : CacheState ExplorePage) (store : List FeedPost)
    (blockedUsers : List String) (page limit : ℕ) (now : ℤ) :
    FeedResult ExplorePage :=
  let g := Cache.get s (exploreKey page) now
  match g.1 with
  | some cachedPage =>
      ⟨{ cachedPage with
          posts := cachedPage.posts.filter
            (fun p => !(blockedUsers.contains p.author)) },
        g.2, false⟩
  | none =>
      let posts := explorePageQuery store page limit
      let result : ExplorePage := ⟨posts, page, limit⟩
      ⟨result, Cache.set g.2 (exploreKey page) (some result) EXPLORE_FEED_TTL now,
        true⟩

/-- The user-document fields `getFollowingFeed` selects:
`following` and `blockedUsers`. -/
structure UserDoc where
  following : List String
  blockedUsers : List String

/-- The Mongo match of `getFollowingFeed`: author in `following`, author
not in `blockedUsers`, not deleted, ready, visibility public or
followers. -/
def followingMatch (u : UserDoc) (p : FeedPost) : Bool :=
  u.following.contains p.author && !(u.blockedUsers.contains p.author)
    && !p.isDeleted && p.status == "ready"
    && (p.visibility == "public" || p.visibility == "followers")

/-- The Mongo sort `{ engagementScore: -1, createdAt: -1 }` of
`getFollowingFeed`. -/
def byScoreThenCreatedDesc (a b : FeedPost) : Bool :=
  decide (b.engagementScore < a.engagementScore)
    || (a.engagementScore == b.engagementScore
        && decide (b.createdAt ≤ a.createdAt))

/-- The following-feed store query: match, sort, `skip((page-1)*limit)`,
over-fetch `limit + 1` rows. -/
def followingQuery (store : List FeedPost) (u : UserDoc) (page limit : ℕ) :
    List FeedPost :=
  ((((store.filter (followingMatch u)).mergeSort byScoreThenCreatedDesc).drop
    ((page - 1) * limit)).take (limit + 1))

/-- `getFollowingFeed` of `postController.js`: cache hit returns the
cached page as-is; on a miss, a user following nobody gets
`{ posts: [], hasMore: false, page, limit }` with no post query;
otherwise over-fetch pagination runs against the post store and the
page is cached for `TTL.FOLLOWING_FEED`. -/
def getFollowingFeed (s : CacheState FollowPage) (u : UserDoc)
    (store : List FeedPost) (userId : String) (page limit : ℕ) (now : ℤ) :
    FeedResult FollowPage :=
  let g := Cache.get s (followingKey userId page) now
  match g.1 with
  | some cachedPage => ⟨cachedPage, g.2, false⟩
  | none =>
      if u.following.isEmpty then
        ⟨⟨[], false, page, limit⟩, g.2, false⟩
      else
        let posts := followingQuery store u page limit
        let hasMore := decide (limit < posts.length)
        let postsToReturn := if limit < posts.length then posts.take limit else posts
        let result : FollowPage := ⟨postsToReturn, hasMore, page, limit⟩
        ⟨result,
          Cache.set g.2 (followingKey userId page) (some result)
            FOLLOWING_FEED_TTL now,
          true⟩

/-- A public, ready, non-deleted post by author `"a"`. -/
def postByA : FeedPost := ⟨"a", false, "ready", "public", false, 1, 0⟩

/-- C4 counterexample: a user who has blocked author `"a"` requests the
explore feed on a cache miss (empty cache); the response contains the
post by `"a"` — the block filter is *not* applied on the cache-miss
path. -/
theorem explore_miss_returns_blocked_author :
    (getExplorePosts (emptyCache ExplorePage) [postByA] ["a"] 1 20 1000).response.posts
      = [postByA] ∧
    postByA.author ∈ ["a"] := by
  constructor
  · have hq : explorePageQuery [postByA] 1 20 = [postByA] := by
      simp [explorePageQuery, exploreMatch, postByA]
    simp only [getExplorePosts, Cache.get, emptyCache]
    rw [hq]
    rfl
  · simp [postByA]

/-- C4 (amended): on the cache-hit path the explore feed never returns a
post whose author is in the requester's blocked set and performs no
store query, and the payload stored in the cache is the unfiltered
shared page; on the cache-miss path the unfiltered shared page is
queried, cached, and returned to that requester as-is. -/
theorem explore_blockFilter_hit_only (s : CacheState ExplorePage)
    (store : List FeedPost) (blockedUsers : List String) (page limit : ℕ)
    (now : ℤ) :
    ((Cache.get s (exploreKey page) now).1 ≠ none →
      (∀ p ∈ (getExplorePosts s store blockedUsers page limit now).response.posts,
        p.author ∉ blockedUsers) ∧
      (getExplorePosts s store blockedUsers page limit now).postStoreQueried
        = false) ∧
    ((Cache.get s (exploreKey page) now).1 = none →
      (getExplorePosts s store blockedUsers page limit now).postStoreQueried
        = true ∧
      (getExplorePosts s store blockedUsers page limit now).response
        = ⟨explorePageQuery store page limit, page, limit⟩ ∧
      (getExplorePosts s store blockedUsers page limit now).state.mem
          (exploreKey page)
        = some (some ⟨explorePageQuery store page limit, page, limit⟩)) := by
  constructor
  · intro hne
    obtain ⟨cp, hg⟩ : ∃ cp, (Cache.get s (exploreKey page) now).1 = some cp := by
      cases hE : (Cache.get s (exploreKey page) now).1 with
      | none => exact absurd hE hne
      | some cp => exact ⟨cp, rfl⟩
    simp only [getExplorePosts]
    rw [hg]
    refine ⟨?_, rfl⟩
    intro p hp hmem
    simp only [List.mem_filter, Bool.not_eq_true'] at hp
    have hc := hp.2
    simp only [List.contains_eq_any_beq] at hc
    simp only [List.any_eq_false] at hc
    exact (by simpa using hc p.author hmem : p.author ≠ p.author) rfl
  · intro hg
    simp only [getExplorePosts]
    rw [hg]
    exact ⟨rfl, rfl, by simp [Cache.set, updMap]⟩

/-- A cached explore page containing the post by `"a"`. -/
def cachedPageA : ExplorePage := ⟨[postByA], 1, 20⟩

/-- A cache state holding `cachedPageA` under the page-1 explore key,
with no expiry entry. -/
def hitCacheA : CacheState ExplorePage :=
  ⟨fun q => if q = exploreKey 1 then some (some cachedPageA) else none,
   fun _ => none⟩

/-- Witness for C4 (amended): a hit from `hitCacheA` filters out the
blocked author and queries no store; a miss on the empty cache queries
the store and caches the unfiltered page. -/
theorem explore_blockFilter_hit_only_witness :
    (getExplorePosts hitCacheA [] ["a"] 1 20 1000).postStoreQueried = false ∧
    (getExplorePosts (emptyCache ExplorePage) [postByA] ["a"] 1 20 1000).postStoreQueried
      = true ∧
    (getExplorePosts (emptyCache ExplorePage) [postByA] ["a"] 1 20 1000).state.mem
        (exploreKey 1)
      = some (some ⟨explorePageQuery [postByA] 1 20, 1, 20⟩) := by
  have hhit := (explore_blockFilter_hit_only hitCacheA [] ["a"] 1 20 1000).1
    (by simp [Cache.get, hitCacheA])
  have hmiss := (explore_blockFilter_hit_only (emptyCache ExplorePage) [postByA]
    ["a"] 1 20 1000).2 rfl
  exact ⟨hhit.2, hmiss.1, hmiss.2.2⟩

/-- C7: a user whose following set is empty gets, on a cache miss,
`{ posts: [], hasMore: false, page, limit }` immediately, and the post
store is not queried. -/
theorem followingFeed_empty_following_no_query (s : CacheState FollowPage)
    (u : UserDoc) (store : List FeedPost) (userId : String) (page limit : ℕ)
    (now : ℤ)
    (hmiss : (Cache.get s (followingKey userId page) now).1 = none)
    (hempty : u.following = []) :
    (getFollowingFeed s u store userId page limit now).response
      = ⟨[], false, page, limit⟩ ∧
    (getFollowingFeed s u store userId page limit now).postStoreQueried
      = false := by
  simp only [getFollowingFeed]
  rw [hmiss]
  simp [hempty]

/-- Witness for C7: empty cache, a user following nobody but with a
non-empty blocked list, a non-empty post store. -/
theorem followingFeed_empty_following_no_query_witness :
    (getFollowingFeed (emptyCache FollowPage) ⟨[], ["x"]⟩ [postByA] "u1" 1 10
        1000).response = ⟨[], false, 1, 10⟩ ∧
    (getFollowingFeed (emptyCache FollowPage) ⟨[], ["x"]⟩ [postByA] "u1" 1 10
        1000).postStoreQueried = false :=
  followingFeed_empty_following_no_query (emptyCache FollowPage) ⟨[], ["x"]⟩
    [postByA] "u1" 1 10 1000 rfl rfl

/-! ## Like toggle (src `postController.js`: `toggleLike`) -/

/-- The post state `toggleLike` works on: the `likes` membership array
and the `likeCount` counter maintained through
`Post.incrementCounter(id, 'likeCount', ±1)`. -/
structure LikeState where
  likes : List String
  likeCount : ℤ

/-- `toggleLike` of `postController.js` (one sequential request, the
read and both writes applied in order): if the user id is in `likes`,
remove every occurrence and decrement `likeCount`; otherwise append the
user id and increment `likeCount`. -/
def toggleLike (userId : String) (s : LikeState) : LikeState :=
  if s.likes.contains userId then
    ⟨s.likes.filter (fun i => i != userId), s.likeCount - 1⟩
  else
    ⟨s.likes ++ [userId], s.likeCount + 1⟩

/-- C6: toggling `like` twice in immediate succession (sequentially)
returns the liker membership to its original state — every user is a
member afterwards iff they were before — and the `likeCount` counter
has a net change of 0. -/
theorem toggleLike_twice_restores (u : String) (s : LikeState) :
    (∀ v, v ∈ (toggleLike u (toggleLike u s)).likes ↔ v ∈ s.likes) ∧
    (toggleLike u (toggleLike u s)).likeCount = s.likeCount := by
  unfold toggleLike
  by_cases h : s.likes.contains u = true
  · rw [if_pos h]
    have hfc : (s.likes.filter (fun i => i != u)).contains u = false := by
      simp [List.contains_eq_any_beq, List.any_eq_false, List.mem_filter]
    have hmemu : u ∈ s.likes := by
      by_contra hn
      rw [List.contains_eq_any_beq, List.any_eq_true] at h
      obtain ⟨x, hx, hbeq⟩ := h
      exact hn (by rwa [show x = u from (beq_iff_eq.mp hbeq).symm] at hx)
    simp only [hfc, Bool.false_eq_true, if_false]
    constructor
    · intro v
      simp only [List.mem_append, List.mem_filter, List.mem_singleton,
        bne_iff_ne, ne_eq]
      constructor
      · rintro (⟨hv, -⟩ | rfl)
        · exact hv
        · exact hmemu
      · intro hv
        by_cases hvu : v = u
        · exact Or.inr hvu
        · exact Or.inl ⟨hv, hvu⟩
    · omega
  · rw [if_neg h]
    have hnm : u ∉ s.likes := fun hm => h (List.elem_eq_true_of_mem hm)
    have hcon : (s.likes ++ [u]).contains u = true :=
      List.elem_eq_true_of_mem (by simp)
    simp only [hcon, if_true]
    have hfeq : (s.likes ++ [u]).filter (fun i => i != u)
        = s.likes.filter (fun i => i != u) := by
      simp [List.filter_append]
    have hfself : s.likes.filter (fun i => i != u) = s.likes := by
      rw [List.filter_eq_self]
      intro a ha
      have : a ≠ u := by
        intro heq
        exact hnm (heq ▸ ha)
      simpa using this
    constructor
    · intro v
      rw [hfeq, hfself]
    · omega

/-! ## Post creation (src `postController.js`: `createPost`) -/

/-- One entry of the unified `media` array of the request body. -/
structure MediaIn where
  url : String
  mtype : Option String
  publicId : Option String
  width : Option ℕ
  height : Option ℕ
  duration : Option ℚ
  thumbnail : Option String
  order : Option ℕ

/-- One entry of the legacy `videos` array of the request body. -/
structure VideoIn where
  url : String
  publicId : Option String
  duration : Option ℚ
  thumbnail : Option String
  width : Option ℕ
  height : Option ℕ

/-- One entry of the normalized `mediaArray` built by `createPost`. -/
structure MediaItem where
  url : String
  mtype : String
  publicId : Option String
  width : Option ℕ
  height : Option ℕ
  duration : Option ℚ
  thumbnail : Option String
  order : ℕ

/-- The request-body fields `createPost` destructures (`media` unified
format; `images`, `videos`, `image` legacy; `scheduledFor`).  An absent
field is `none`. -/
structure CreateBody where
  media : Option (List MediaIn)
  images : Option (List String)
  image : Option String
  videos : Option (List VideoIn)
  scheduledFor : Option String

/-- JavaScript truthiness of an optional string (`undefined`, `null` and
`""` are falsy). -/
def truthyStr : Option String → Bool
  | some s => s ≠ ""
  | none => false

/-- The `mediaArray` normalization of `createPost`: when `media` is a
non-empty array it is mapped to the unified form (`type` defaulting to
`'image'` when falsy, `order` to the index via `??`); otherwise the
legacy `images` array (or, when `images` is not an array, a truthy
single `image`) contributes image items, and a legacy `videos` array
appends video items whose `order` is `mediaArray.length + idx` read at
push time. -/
def normalizeMedia (body : CreateBody) : List MediaItem :=
  match body.media with
  | some l =>
      if 0 < l.length then
        l.enum.map (fun x =>
          ⟨x.2.url,
           (match x.2.mtype with
            | some t => if t = "" then "image" else t
            | none => "image"),
           x.2.publicId, x.2.width, x.2.height, x.2.duration, x.2.thumbnail,
           x.2.order.getD x.1⟩)
      else legacyMedia body
  | none => legacyMedia body
where
  /-- The legacy-format conversion branch of `createPost`. -/
  legacyMedia (body : CreateBody) : List MediaItem :=
    let base : List MediaItem :=
      match body.images with
      | some imgs =>
          imgs.enum.map (fun x =>
            ⟨x.2, "image", none, none, none, none, none, x.1⟩)
      | none =>
          match body.image with
          | some u =>
              if u ≠ "" then [⟨u, "image", none, none, none, none, none, 0⟩]
              else []
          | none => []
    match body.videos with
    | some vs =>
        base ++ vs.enum.map (fun x =>
          ⟨x.2.url, "video", x.2.publicId, x.2.width, x.2.height,
           x.2.duration, x.2.thumbnail, base.length + 2 * x.1⟩)
    | none => base

/-- The post record `createPost` builds when validation passes. -/
structure CreatedPost where
  media : List MediaItem
  status : String
  scheduledFor : Option String

/-- `createPost` of `postController.js`, up to the `Post.create` call:
rejects an empty normalized media list and one of more than 10 items
with a 400 validation message; otherwise the post is created
(`scheduled` when `scheduledFor` is truthy, `ready` otherwise). -/
def createPost (body : CreateBody) : Except String CreatedPost :=
  let mediaArray := normalizeMedia body
  if mediaArray.length = 0 then
    Except.error "At least one image or video is required"
  else if mediaArray.length > 10 then
    Except.error "Maximum 10 media items per post"
  else
    Except.ok
      ⟨mediaArray,
       if truthyStr body.scheduledFor then "scheduled" else "ready",
       if truthyStr body.scheduledFor then body.scheduledFor else none⟩

/-- C8: post creation fails with a validation error exactly when the
normalized media list is empty or has more than 10 items; with 1 to 10
items the post is created (no media-count validation error). -/
theorem createPost_media_count_validation (body : CreateBody) :
    ((∃ msg, createPost body = Except.error msg) ↔
      ((normalizeMedia body).length = 0 ∨ 10 < (normalizeMedia body).length)) ∧
    ((∃ post, createPost body = Except.ok post) ↔
      (1 ≤ (normalizeMedia body).length ∧ (normalizeMedia body).length ≤ 10)) := by
  unfold createPost
  by_cases h0 : (normalizeMedia body).length = 0
  · simp [h0]
  · by_cases h10 : (normalizeMedia body).length > 10
    · simp [h0, h10]
    · simp [h0, h10]
      omega

/-! ## Scheduled-post publisher (src `scheduler.js`, the every-minute
cron body)

The tick queries `{ status: 'scheduled', scheduledFor: { $lte: now } }`,
then iterates: set `status = 'ready'`, save, and — when the author has
followers — build one notification per follower and `insertMany` them.
The whole loop body sits inside one `try/catch`; there is no per-post
error boundary, so an exception from a fan-out aborts the remainder of
the loop.  `fanoutFails` is the failure oracle: whether the
notification insert for a given post id throws. -/

/-- A scheduled post as the publisher sees it (author populated with
`username` and `followers`). -/
structure SchedPost where
  pid : ℕ
  status : String
  /-- `scheduledFor`, epoch milliseconds -/
  scheduledFor : ℤ
  authorId : ℕ
  authorName : String
  followers : List ℕ

/-- One notification document built by the publisher. -/
structure SchedNotification where
  userId : ℕ
  actorId : ℕ
  title : String
  body : String
  ntype : String
  postId : ℕ

/-- `author.followers.map(followerId => ({...}))` of the publisher. -/
def mkNotifications (p : SchedPost) : List SchedNotification :=
  p.followers.map (fun f =>
    ⟨f, p.authorId, "New Post", p.authorName ++ " shared a new post", "share",
     p.pid⟩)

/-- The `for (const post of duePosts)` loop: returns the ids saved as
`ready` and the notifications inserted.  A post is saved first; then,
when it has followers and its fan-out throws, the exception leaves the
loop (caught only by the tick-level catch), so the remaining posts are
not processed. -/
def publishLoop (fanoutFails : ℕ → Bool) : List SchedPost →
    List ℕ × List SchedNotification
  | [] => ([], [])
  | p :: rest =>
      if p.followers.length > 0 then
        if fanoutFails p.pid then ([p.pid], [])
        else
          let r := publishLoop fanoutFails rest
          (p.pid :: r.1, mkNotifications p ++ r.2)
      else
        let r := publishLoop fanoutFails rest
        (p.pid :: r.1, r.2)

/-- One publisher tick: select the due posts
(`status = 'scheduled' ∧ scheduledFor ≤ now`) and run the loop. -/
def publishTick (posts : List SchedPost) (now : ℤ)
    (fanoutFails : ℕ → Bool) : List ℕ × List SchedNotification :=
  publishLoop fanoutFails
    (posts.filter (fun p => p.status == "scheduled" && decide (p.scheduledFor ≤ now)))

/-- A post's status after a tick that saved `published` as ready. -/
def statusAfterTick (p : SchedPost) (published : List ℕ) : String :=
  if p.pid ∈ published then "ready" else p.status

/-- Due post 1: one follower; its notification insert will throw. -/
def duePost1 : SchedPost := ⟨1, "scheduled", 0, 100, "alice", [10]⟩

/-- Due post 2: three followers. -/
def duePost2 : SchedPost := ⟨2, "scheduled", 0, 200, "bob", [20, 21, 22]⟩

/-- C3: evaluating the publisher at the failing input.  With two due
posts and the notification fan-out throwing for the first, the tick
publishes only post 1: post 2 keeps `status = 'scheduled'` and gets no
notifications — the failure *does* prevent the remaining due post from
being transitioned in the same tick, contradicting the claim.  For
contrast, the same tick with no fan-out failure publishes both posts
and enqueues exactly one notification per follower (1 + 3 = 4, and
exactly 3 for post 2's three followers — never zero). -/
theorem publishTick_aborts_after_fanout_failure :
    (publishTick [duePost1, duePost2] 5 (fun pid => pid == 1)).1 = [1] ∧
    statusAfterTick duePost2
        (publishTick [duePost1, duePost2] 5 (fun pid => pid == 1)).1
      = "scheduled" ∧
    (publishTick [duePost1, duePost2] 5 (fun pid => pid == 1)).2 = [] ∧
    (publishTick [duePost1, duePost2] 5 (fun _ => false)).1 = [1, 2] ∧
    (publishTick [duePost1, duePost2] 5 (fun _ => false)).2.length
      = (duePost1.followers.length + duePost2.followers.length) ∧
    (publishTick [duePost2] 5 (fun _ => false)).2 = mkNotifications duePost2 := by
  refine ⟨rfl, ?_, rfl, rfl, rfl, rfl⟩
  simp [statusAfterTick, publishTick, publishLoop, duePost1, duePost2,
    mkNotifications]

end VYB
